import Mathlib

/- Shallow embedding of the IOPlus Instruction List interpreter
   (src/il_interpreter.c) and of the demo memory provider (src/gtk_demo.c).

   Machine integers (C uint16_t) are modelled as Nat with an explicit
   % 2^16 truncation at exactly the points where C converts a wider value
   back to uint16_t.  The two bounded stacks are modelled as the C arrays
   are: a cell function (the backing array) together with a top counter;
   pushes write through the cell function and the counters follow the C
   code literally, including its unconditional increment in
   eval_stack_push.  The caller-supplied memory interface is modelled by
   a pure read function (each execute step performs at most one memory
   call, so reads see the pre-step memory) plus an explicit trace of the
   get/set calls the step makes.  The C expression op1 / op2 has
   undefined behaviour when op2 is 0, so evaluate_operator returns an
   Option, none exactly where the C code's behaviour is undefined. -/

namespace IOPlus

/-- The modulus of uint16_t arithmetic. -/
def U16 : Nat := 65536

/-! Command codes (low 8 bits of the encoded instruction) and flag bits,
from il_interpreter.c. -/

def CMD_NOP  : Nat := 0
def CMD_LOAD : Nat := 1
def CMD_STOR : Nat := 2
def CMD_SET  : Nat := 3
def CMD_RST  : Nat := 4
def CMD_AND  : Nat := 5
def CMD_OR   : Nat := 6
def CMD_XOR  : Nat := 7
def CMD_ADD  : Nat := 8
def CMD_SUB  : Nat := 9
def CMD_MUL  : Nat := 10
def CMD_DIV  : Nat := 11
def CMD_GT   : Nat := 12
def CMD_GE   : Nat := 13
def CMD_EQ   : Nat := 14
def CMD_NE   : Nat := 15
def CMD_LE   : Nat := 16
def CMD_LT   : Nat := 17
def CMD_JMP  : Nat := 18
def CMD_CAL  : Nat := 19
def CMD_RET  : Nat := 20
def CMD_PAR  : Nat := 21
def CMD_MASK : Nat := 255

def FLG_IMM : Nat := 4096
def FLG_NEG : Nat := 8192
def FLG_CND : Nat := 16384
def FLG_PAR : Nat := 32768

/-- The C truth test cmd AND flg, for a one-bit flag constant. -/
def hasFlag (cmd flg : Nat) : Bool := cmd.land flg != 0

/-! Evaluation stack (il_interpreter.c lines 49-89).  The backing array
eval_stack[] is modelled as a cell function; eval_stack_top as top. -/

def EVAL_STACK_MAX_DEPTH : Nat := 20

structure EvalStack where
  cells : Nat → Nat × Nat
  top : Nat

/-- eval_stack_push: stores only while top is below capacity, but
increments the top counter unconditionally, exactly as the C code. -/
def eval_stack_push (s : EvalStack) (cmd a : Nat) : EvalStack :=
  if s.top < EVAL_STACK_MAX_DEPTH then
    { cells := fun i => if i = s.top then (cmd, a) else s.cells i,
      top := s.top + 1 }
  else
    { s with top := s.top + 1 }

/-- eval_stack_pop: fails when the counter is 0 or at/above capacity. -/
def eval_stack_pop (s : EvalStack) : Option (EvalStack × Nat × Nat) :=
  if s.top = 0 ∨ EVAL_STACK_MAX_DEPTH ≤ s.top then none
  else
    some ({ s with top := s.top - 1 },
          (s.cells (s.top - 1)).1, (s.cells (s.top - 1)).2)

/-! Call stack (il_interpreter.c lines 96-124). -/

def CALL_STACK_MAX_DEPTH : Nat := 20

structure CallStack where
  cells : Nat → Nat
  top : Nat

/-- call_stack_push: refuses (returning false, state unchanged) when the
stack is full, otherwise stores and increments. -/
def call_stack_push (s : CallStack) (addr : Nat) : CallStack × Bool :=
  if CALL_STACK_MAX_DEPTH ≤ s.top then (s, false)
  else
    ({ cells := fun i => if i = s.top then addr else s.cells i,
       top := s.top + 1 }, true)

/-- call_stack_pop: fails when the stack is empty. -/
def call_stack_pop (s : CallStack) : Option (CallStack × Nat) :=
  if s.top = 0 then none
  else some ({ s with top := s.top - 1 }, s.cells (s.top - 1))

/-! Interpreter state: the accumulator register and the two stacks.
Memory is owned by the caller and reached through the interface. -/

structure ILState where
  accum : Nat
  evalS : EvalStack
  callS : CallStack

/-- il_interp_init: zero the accumulator and both stack counters (the
backing arrays are left as they are, as in the C code). -/
def il_interp_init (s : ILState) : ILState :=
  { accum := 0,
    evalS := { s.evalS with top := 0 },
    callS := { s.callS with top := 0 } }

/-- One call made through the caller-supplied memory interface. -/
inductive MemEvent where
  | getE (addr : Nat) (invert : Bool)
  | setE (addr : Nat) (val : Nat) (invert : Bool)

/-- evaluate_operator (il_interpreter.c lines 242-282).  getf is the
memory read callback; the returned list records the memory calls made.
Returns none exactly where the C code divides by zero, which is
undefined behaviour. -/
def evaluate_operator (getf : Nat → Bool → Nat) (cmd op1 op2 : Nat) :
    Option (Nat × List MemEvent) :=
  let op1 := op1 % U16
  let op2 := op2 % U16
  let code := cmd.land CMD_MASK
  if code = CMD_LOAD then
    some ((getf op2 (hasFlag cmd FLG_NEG)) % U16,
          [MemEvent.getE op2 (hasFlag cmd FLG_NEG)])
  else if code = CMD_STOR then
    some (op1, [MemEvent.setE op2 op1 (hasFlag cmd FLG_NEG)])
  else
    let op2 := if hasFlag cmd FLG_NEG then 65535 - op2 else op2
    if code = CMD_AND then some (op1.land op2, [])
    else if code = CMD_OR then some (op1.lor op2, [])
    else if code = CMD_XOR then some (op1.xor op2, [])
    else if code = CMD_ADD then some ((op1 + op2) % U16, [])
    else if code = CMD_SUB then some ((op1 + U16 - op2) % U16, [])
    else if code = CMD_MUL then some ((op1 * op2) % U16, [])
    else if code = CMD_DIV then
      if op2 = 0 then none else some (op1 / op2, [])
    else if code = CMD_GT then some (if op2 < op1 then 1 else 0, [])
    else if code = CMD_GE then some (if op2 ≤ op1 then 1 else 0, [])
    else if code = CMD_EQ then some (if op1 = op2 then 1 else 0, [])
    else if code = CMD_NE then some (if op1 = op2 then 0 else 1, [])
    else if code = CMD_LE then some (if op1 ≤ op2 then 1 else 0, [])
    else if code = CMD_LT then some (if op1 < op2 then 1 else 0, [])
    else some (0, [])

/-- The SET/RST firing condition: accumulator truthy, inverted by the
Negate flag (il_interpreter.c lines 307-316). -/
def setCond (cmd a : Nat) : Bool :=
  (!(hasFlag cmd FLG_NEG) && a != 0) || (hasFlag cmd FLG_NEG && a == 0)

/-- The JMP/RET/CAL skip condition: skip when Conditional is set and the
branch condition fails (il_interpreter.c lines 321-324). -/
def branchSkip (cmd a : Nat) : Bool :=
  hasFlag cmd FLG_CND &&
    ((hasFlag cmd FLG_NEG && a != 0) || (!(hasFlag cmd FLG_NEG) && a == 0))

/-- il_interp_execute (il_interpreter.c lines 294-395).  Returns the new
state, the next line, and the trace of memory-interface calls; none
exactly when the step runs into the undefined division by zero. -/
def il_interp_execute (getf : Nat → Bool → Nat) (s : ILState)
    (cmd location line : Nat) : Option (ILState × Nat × List MemEvent) :=
  let location := location % U16
  let line1 := (line % U16 + 1) % U16
  let code := cmd.land CMD_MASK
  if code = CMD_SET then
    if setCond cmd s.accum then
      some (s, line1, [MemEvent.setE location 1 false])
    else some (s, line1, [])
  else if code = CMD_RST then
    if setCond cmd s.accum then
      some (s, line1, [MemEvent.setE location 0 false])
    else some (s, line1, [])
  else if code = CMD_JMP ∨ code = CMD_RET ∨ code = CMD_CAL then
    if branchSkip cmd s.accum then some (s, line1, [])
    else if code = CMD_JMP then some (s, location, [])
    else if code = CMD_RET then
      match call_stack_pop s.callS with
      | none => some (s, 65535, [])
      | some (cs, l) => some ({ s with callS := cs }, l, [])
    else
      match call_stack_push s.callS line1 with
      | (cs, true) => some ({ s with callS := cs }, location, [])
      | (cs, false) => some ({ s with callS := cs }, line1, [])
  else if code = CMD_STOR ∨ code = CMD_LOAD then
    if hasFlag cmd FLG_PAR then
      let s' : ILState :=
        { s with evalS := eval_stack_push s.evalS cmd s.accum, accum := location }
      some (s', line1, [])
    else if code = CMD_STOR then
      some (s, line1, [MemEvent.setE location s.accum (hasFlag cmd FLG_NEG)])
    else if hasFlag cmd FLG_IMM then
      some ({ s with accum := location }, line1, [])
    else
      some ({ s with accum := (getf location (hasFlag cmd FLG_NEG)) % U16 },
            line1, [MemEvent.getE location (hasFlag cmd FLG_NEG)])
  else if CMD_AND ≤ code ∧ code ≤ CMD_LT then
    let value := if hasFlag cmd FLG_IMM then location
                 else (getf location false) % U16
    let evs : List MemEvent :=
      if hasFlag cmd FLG_IMM then [] else [MemEvent.getE location false]
    if hasFlag cmd FLG_PAR then
      let s' : ILState :=
        { s with evalS := eval_stack_push s.evalS cmd s.accum, accum := value }
      some (s', line1, evs)
    else
      match evaluate_operator getf cmd s.accum value with
      | none => none
      | some (a, evs2) => some ({ s with accum := a }, line1, evs ++ evs2)
  else if code = CMD_PAR then
    match eval_stack_pop s.evalS with
    | none => some (s, line1, [])
    | some (es, scmd, saccum) =>
      match evaluate_operator getf scmd saccum s.accum with
      | none => none
      | some (a, evs) => some ({ s with evalS := es, accum := a }, line1, evs)
  else
    some (s, line1, [])

/-! The demo memory provider (src/gtk_demo.c).  The two 26-slot bit
banks and two 26-slot word banks behind the GTK widgets are modelled as
total cell functions; the address decoder and the get/set callbacks
follow the C code. -/

def MEM_SIZE : Nat := 26

/-- addr_decode (gtk_demo.c lines 169-182): modbus-style address to
(column, row).  Columns 0,1 are the bit banks; 2,3 the word banks. -/
def addr_decode (addr : Nat) : Option (Nat × Nat) :=
  let tcol := addr / 10000
  let trow := addr % 10000
  if trow = 0 ∨ MEM_SIZE < trow then none
  else if tcol = 0 ∨ tcol = 1 then some (tcol, trow - 1)
  else if tcol = 3 ∨ tcol = 4 then some (tcol - 1, trow - 1)
  else none

structure DemoMem where
  bit_memory : Nat → Nat → Bool
  word_memory : Nat → Nat → Nat

/-- mem_set (gtk_demo.c lines 194-206). -/
def mem_set (m : DemoMem) (addr val : Nat) (invert : Bool) : DemoMem :=
  let val := val % U16
  match addr_decode addr with
  | none => m
  | some (col, row) =>
    if col < 2 then
      let val := if invert then (if val = 0 then 1 else 0) else val
      { m with bit_memory := fun c r =>
          if c = col ∧ r = row then val != 0 else m.bit_memory c r }
    else
      let val := if invert then 65535 - val else val
      { m with word_memory := fun c r =>
          if c = col - 2 ∧ r = row then val else m.word_memory c r }

/-- mem_get (gtk_demo.c lines 216-229). -/
def mem_get (m : DemoMem) (addr : Nat) (invert : Bool) : Nat :=
  match addr_decode addr with
  | none => 0
  | some (col, row) =>
    if col < 2 then
      let v : Nat := if m.bit_memory col row then 1 else 0
      if invert then (if v = 0 then 1 else 0) else v
    else
      let v := m.word_memory (col - 2) row % U16
      if invert then 65535 - v else v

/-- A concrete interpreter state used to instantiate theorems: zero
accumulator, both stacks empty with zeroed backing arrays. -/
def st0 : ILState := ⟨0, ⟨fun _ => (0, 0), 0⟩, ⟨fun _ => 0, 0⟩⟩

/-- A concrete memory image: all bits clear, all words zero. -/
def m0 : DemoMem := ⟨fun _ _ => false, fun _ _ => 0⟩

/-- Claim C1: the evaluation-stack push is claimed to fail cleanly when the
stack already holds 20 entries, storing nothing and leaving the depth
counter unchanged.  The code stores nothing but still increments
eval_stack_top past capacity: a push at depth 20 leaves the cells alone
and moves the counter to 21. -/
theorem eval_stack_push_full_increments (s : EvalStack) (cmd a : Nat)
    (h : s.top = EVAL_STACK_MAX_DEPTH) :
    eval_stack_push s cmd a = { s with top := EVAL_STACK_MAX_DEPTH + 1 } := by
  unfold eval_stack_push
  rw [h]
  simp

/-- Witness for eval_stack_push_full_increments at a concrete full stack. -/
theorem eval_stack_push_full_increments_witness :
    eval_stack_push ⟨fun _ => (0, 0), 20⟩ 5 7 = ⟨fun _ => (0, 0), 21⟩ :=
  eval_stack_push_full_increments ⟨fun _ => (0, 0), 20⟩ 5 7 rfl

def pushRepeat : Nat → EvalStack → EvalStack
  | 0, s => s
  | n + 1, s => pushRepeat n (eval_stack_push s 1 0)

/-- Claim C2, counterexample: after 20 pushes from empty the evaluation
stack is non-empty (its depth counter is 20), yet eval_stack_pop fails,
so pop does not fail exactly when the stack is empty. -/
theorem eval_stack_pop_full_fails :
    (pushRepeat 20 ⟨fun _ => (0, 0), 0⟩).top ≠ 0 ∧
    eval_stack_pop (pushRepeat 20 ⟨fun _ => (0, 0), 0⟩) = none := by
  constructor
  · decide
  · rfl

/-- Claim C2, amended: evaluation-stack pop fails exactly when the depth
counter is 0 or at/above the capacity 20; when a push happens at depth
below 19, an immediate pop succeeds and returns the pushed
(opcode, saved-accumulator) entry; and a close-group instruction executed
with an empty evaluation stack is a no-op: state unchanged, no memory
calls, next line = current line + 1. -/
theorem eval_stack_pop_spec (s : EvalStack) (cmd a : Nat) :
    (eval_stack_pop s = none ↔ (s.top = 0 ∨ EVAL_STACK_MAX_DEPTH ≤ s.top)) ∧
    (s.top + 1 < EVAL_STACK_MAX_DEPTH →
      ∃ s', eval_stack_pop (eval_stack_push s cmd a) = some (s', cmd, a) ∧
        s'.top = s.top ∧ (∀ i, i ≠ s.top → s'.cells i = s.cells i)) ∧
    (∀ getf st cmd2 loc line, st.evalS.top = 0 → cmd2.land CMD_MASK = CMD_PAR →
      line + 1 < U16 →
      il_interp_execute getf st cmd2 loc line = some (st, line + 1, [])) := by
  refine ⟨?_, ?_, ?_⟩
  · unfold eval_stack_pop
    split_ifs with h <;> simp [h]
  · intro h
    unfold eval_stack_push eval_stack_pop
    rw [if_pos (by omega : s.top < EVAL_STACK_MAX_DEPTH)]
    rw [if_neg (by simp; omega)]
    refine ⟨⟨fun i => if i = s.top then (cmd, a) else s.cells i, s.top⟩, by simp, rfl, ?_⟩
    intro i hi
    simp [hi]
  · intro getf st cmd2 loc line htop hcode hline
    have hlt : line < U16 := by omega
    unfold il_interp_execute
    rw [hcode]
    have hpop : eval_stack_pop st.evalS = none := by
      unfold eval_stack_pop
      rw [if_pos (Or.inl htop)]
    norm_num [CMD_SET, CMD_RST, CMD_JMP, CMD_RET, CMD_CAL, CMD_STOR, CMD_LOAD,
      CMD_AND, CMD_LT, CMD_PAR, hpop, Nat.mod_eq_of_lt hlt, Nat.mod_eq_of_lt hline]

/-- Witness for eval_stack_pop_spec: pop after a push on the empty stack
succeeds. -/
theorem eval_stack_pop_spec_witness :
    eval_stack_pop (eval_stack_push st0.evalS 8 3) ≠ none := by
  obtain ⟨s', hs', -, -⟩ := (eval_stack_pop_spec st0.evalS 8 3).2.1 (by decide)
  rw [hs']
  simp

/-- Claim C3: for a JUMP with Conditional and Negate set, execute returns
the operand as next line when the accumulator is 0 and current line + 1
when it is nonzero; a JUMP without Conditional always returns the
operand.  State is unchanged and no memory call is made. -/
theorem jump_spec (getf : Nat → Bool → Nat) (s : ILState) (cmd loc line : Nat)
    (hcode : cmd.land CMD_MASK = CMD_JMP) (hloc : loc < U16) (hline : line + 1 < U16) :
    (hasFlag cmd FLG_CND = true → hasFlag cmd FLG_NEG = true →
      (s.accum = 0 → il_interp_execute getf s cmd loc line = some (s, loc, [])) ∧
      (s.accum ≠ 0 → il_interp_execute getf s cmd loc line = some (s, line + 1, []))) ∧
    (hasFlag cmd FLG_CND = false →
      il_interp_execute getf s cmd loc line = some (s, loc, [])) := by
  unfold il_interp_execute
  rw [hcode]
  norm_num [CMD_SET, CMD_RST, CMD_JMP, CMD_RET, CMD_CAL, CMD_STOR, CMD_LOAD,
    CMD_AND, CMD_LT, CMD_PAR, CMD_MASK]
  constructor
  · intro hC hN
    constructor
    · intro ha
      rw [if_neg (by simp [branchSkip, hC, hN, ha])]
      simp [Nat.mod_eq_of_lt hloc]
    · intro ha
      rw [if_pos (by simp [branchSkip, hC, hN, ha])]
      simp only [U16] at hline ⊢
      simp
      omega
  · intro hC
    rw [if_neg (by simp [branchSkip, hC])]
    simp [Nat.mod_eq_of_lt hloc]

/-- Witness for jump_spec: JUMP_CN (code 24594) with accumulator 0 at line
3 branches to target 7. -/
theorem jump_spec_witness :
    il_interp_execute (fun _ _ => 0) st0 24594 7 3 = some (st0, 7, []) :=
  ((jump_spec (fun _ _ => 0) st0 24594 7 3 (by decide) (by decide) (by decide)).1
    (by decide) (by decide)).1 rfl

/-- Claim C4: with call-stack depth at most 19, an unconditional CALL at
line L with target T pushes L + 1 and continues at T, and an immediately
following unconditional RET pops and resumes at L + 1 with the depth
restored; at depth 20 the CALL leaves the call stack unchanged and falls
through to L + 1. -/
theorem call_ret_roundtrip (getf : Nat → Bool → Nat) (s : ILState) (cmd loc line : Nat)
    (hcode : cmd.land CMD_MASK = CMD_CAL) (hnc : hasFlag cmd FLG_CND = false)
    (hloc : loc < U16) (hline : line + 1 < U16) :
    (s.callS.top ≤ 19 →
      ∃ s', il_interp_execute getf s cmd loc line = some (s', loc, []) ∧
        s'.accum = s.accum ∧ s'.evalS = s.evalS ∧
        s'.callS.top = s.callS.top + 1 ∧
        s'.callS.cells s.callS.top = line + 1 ∧
        (∀ getf2 cmd2 loc2 line2, cmd2.land CMD_MASK = CMD_RET →
          hasFlag cmd2 FLG_CND = false →
          ∃ s'', il_interp_execute getf2 s' cmd2 loc2 line2 = some (s'', line + 1, []) ∧
            s''.accum = s.accum ∧ s''.evalS = s.evalS ∧ s''.callS.top = s.callS.top)) ∧
    (s.callS.top = CALL_STACK_MAX_DEPTH →
      il_interp_execute getf s cmd loc line = some (s, line + 1, [])) := by
  have hl2 : (line + 1) % U16 = line + 1 := Nat.mod_eq_of_lt hline
  constructor
  · intro htop
    refine ⟨{ s with callS :=
        ⟨fun i => if i = s.callS.top then line + 1 else s.callS.cells i,
         s.callS.top + 1⟩ }, ?_, rfl, rfl, rfl, by simp, ?_⟩
    · unfold il_interp_execute
      rw [hcode]
      norm_num [CMD_SET, CMD_RST, CMD_JMP, CMD_RET, CMD_CAL, CMD_STOR, CMD_LOAD,
        CMD_AND, CMD_LT, CMD_PAR, CMD_MASK]
      rw [if_neg (by simp [branchSkip, hnc])]
      unfold call_stack_push
      rw [if_neg (by simp only [CALL_STACK_MAX_DEPTH]; omega)]
      simp [hl2, Nat.mod_eq_of_lt hloc]
    · intro getf2 cmd2 loc2 line2 hcode2 hnc2
      refine ⟨{ s with callS :=
          ⟨fun i => if i = s.callS.top then line + 1 else s.callS.cells i,
           s.callS.top⟩ }, ?_, rfl, rfl, rfl⟩
      unfold il_interp_execute
      rw [hcode2]
      norm_num [CMD_SET, CMD_RST, CMD_JMP, CMD_RET, CMD_CAL, CMD_STOR, CMD_LOAD,
        CMD_AND, CMD_LT, CMD_PAR, CMD_MASK]
      rw [if_neg (by simp [branchSkip, hnc2])]
      unfold call_stack_pop
      rw [if_neg (by simp)]
      simp
  · intro htop
    unfold il_interp_execute
    rw [hcode]
    norm_num [CMD_SET, CMD_RST, CMD_JMP, CMD_RET, CMD_CAL, CMD_STOR, CMD_LOAD,
      CMD_AND, CMD_LT, CMD_PAR, CMD_MASK]
    rw [if_neg (by simp [branchSkip, hnc])]
    unfold call_stack_push
    rw [if_pos (by simp only [CALL_STACK_MAX_DEPTH] at htop ⊢; omega)]
    simp [hl2]

/-- Witness for call_ret_roundtrip: CALL (code 19) at line 2 with target 9
from the empty call stack branches to 9 with depth 1. -/
theorem call_ret_roundtrip_witness :
    ∃ s', il_interp_execute (fun _ _ => 0) st0 19 9 2 = some (s', 9, []) ∧
      s'.callS.top = 1 := by
  obtain ⟨s', he, -, -, htop, -, -⟩ := (call_ret_roundtrip (fun _ _ => 0) st0 19 9 2
    (by decide) (by decide) (by decide) (by decide)).1 (by decide)
  exact ⟨s', he, by rw [htop]; rfl⟩

/-- Claim C5: a RET whose branch condition does not skip it (in particular
an unconditional RET), executed with an empty call stack, returns the
sentinel next line 65535 with the whole interpreter state unchanged and
no memory calls. -/
theorem ret_underflow (getf : Nat → Bool → Nat) (s : ILState) (cmd loc line : Nat)
    (hcode : cmd.land CMD_MASK = CMD_RET)
    (hempty : s.callS.top = 0)
    (hcond : branchSkip cmd s.accum = false) :
    il_interp_execute getf s cmd loc line = some (s, 65535, []) := by
  unfold il_interp_execute
  rw [hcode]
  have hpop : call_stack_pop s.callS = none := by
    unfold call_stack_pop
    rw [if_pos hempty]
  norm_num [CMD_SET, CMD_RST, CMD_JMP, CMD_RET, CMD_CAL, CMD_STOR, CMD_LOAD,
    CMD_AND, CMD_LT, CMD_PAR, CMD_MASK, hcond, hpop]

/-- Witness for ret_underflow: plain RET (code 20) on the initial state. -/
theorem ret_underflow_witness :
    il_interp_execute (fun _ _ => 0) st0 20 0 3 = some (st0, 65535, []) :=
  ret_underflow (fun _ _ => 0) st0 20 0 3 (by decide) rfl (by decide)

/-- Claim C6: executing DIV with an immediate operand of 0 (encoded
command 4107 = DIV with the Immediate flag) has no defined result: the
C code computes op1 / 0, which is undefined behaviour, modelled here as
none.  The claimed total, deterministic outcome does not hold of the
code. -/
theorem div_zero_undefined (getf : Nat → Bool → Nat) (s : ILState) (line : Nat) :
    il_interp_execute getf s 4107 0 line = none := by
  have h1 : Nat.land 4107 CMD_MASK = 11 := by decide
  have h2 : hasFlag 4107 FLG_IMM = true := by decide
  have h3 : hasFlag 4107 FLG_PAR = false := by decide
  have h4 : hasFlag 4107 FLG_NEG = false := by decide
  unfold il_interp_execute evaluate_operator
  rw [h1]
  norm_num [CMD_SET, CMD_RST, CMD_JMP, CMD_RET, CMD_CAL, CMD_STOR, CMD_LOAD,
    CMD_AND, CMD_LT, CMD_PAR, CMD_MASK, CMD_OR, CMD_XOR, CMD_ADD, CMD_SUB,
    CMD_MUL, CMD_DIV, h1, h2, h3, h4, U16]

/-- Claim C7: address decoding succeeds exactly when the slot part
(address mod 10000) lies in 1..26 and the region digit (address div
10000) is one of 0, 1, 3, 4; on success the row is slot - 1 and the
column is 0, 1, 2, 3 for region digits 0, 1, 3, 4 respectively. -/
theorem addr_decode_spec (a : Nat) :
    ((addr_decode a).isSome ↔
      (1 ≤ a % 10000 ∧ a % 10000 ≤ 26 ∧
        (a / 10000 = 0 ∨ a / 10000 = 1 ∨ a / 10000 = 3 ∨ a / 10000 = 4))) ∧
    (∀ c r, addr_decode a = some (c, r) →
      r = a % 10000 - 1 ∧
      ((a / 10000 = 0 ∧ c = 0) ∨ (a / 10000 = 1 ∧ c = 1) ∨
       (a / 10000 = 3 ∧ c = 2) ∨ (a / 10000 = 4 ∧ c = 3))) := by
  constructor
  · simp only [addr_decode, MEM_SIZE]
    split_ifs with h1 h2 h3 <;> simp <;> omega
  · intro c r h
    simp only [addr_decode, MEM_SIZE] at h
    split_ifs at h with h1 h2 h3 <;> simp at h <;> omega

/-- Witness for addr_decode_spec: address 30005 decodes. -/
theorem addr_decode_spec_witness : (addr_decode 30005).isSome :=
  (addr_decode_spec 30005).1.mpr (by decide)

/-- Claim C8: for a valid address, get after set (both without invert)
returns the stored representation: the boolean collapse of v for the bit
banks (columns 0, 1) and v itself for the word banks; get with invert
returns the logical complement of the bit, respectively 65535 - v,
which for v below 2^16 is the 16-bit bitwise complement. -/
theorem mem_roundtrip (m : DemoMem) (a v c r : Nat) (hv : v < U16)
    (hd : addr_decode a = some (c, r)) :
    (c < 2 →
      mem_get (mem_set m a v false) a false = (if v = 0 then 0 else 1) ∧
      mem_get (mem_set m a v false) a true = (if v = 0 then 1 else 0)) ∧
    (2 ≤ c →
      mem_get (mem_set m a v false) a false = v ∧
      mem_get (mem_set m a v false) a true = 65535 - v) := by
  have hm : v % U16 = v := Nat.mod_eq_of_lt hv
  unfold mem_set mem_get
  rw [hd]
  constructor
  · intro hc
    simp only [hm, if_pos hc, Bool.false_eq_true, if_false, if_true]
    by_cases hv0 : v = 0 <;> simp [hv0]
  · intro hc
    have hc' : ¬ c < 2 := by omega
    simp only [hm, if_neg hc', Bool.false_eq_true, if_false, if_true]
    simp [hm]

/-- Witness for mem_roundtrip at word address 30001 with value 513. -/
theorem mem_roundtrip_witness :
    mem_get (mem_set m0 30001 513 false) 30001 false = 513 ∧
    mem_get (mem_set m0 30001 513 false) 30001 true = 65022 :=
  (mem_roundtrip m0 30001 513 2 0 (by decide) (by decide)).2 (by decide)

/-- Claim C9: il_interp_init zeroes the call-stack depth counter;
call_stack_push never raises the counter past the capacity 20 and
call_stack_pop fails on an empty stack rather than decrementing below
zero; and every il_interp_execute step preserves the invariant that the
counter is at most 20, so each slot read by a pop was written by an
earlier successful push. -/
theorem call_stack_depth_invariant :
    (∀ s : ILState, (il_interp_init s).callS.top = 0) ∧
    (∀ cs : CallStack, ∀ addr : Nat, cs.top ≤ CALL_STACK_MAX_DEPTH →
      (call_stack_push cs addr).1.top ≤ CALL_STACK_MAX_DEPTH) ∧
    (∀ cs : CallStack, cs.top = 0 → call_stack_pop cs = none) ∧
    (∀ getf s cmd loc line out, s.callS.top ≤ CALL_STACK_MAX_DEPTH →
      il_interp_execute getf s cmd loc line = some out →
      out.1.callS.top ≤ CALL_STACK_MAX_DEPTH) := by
  refine ⟨fun s => rfl, ?_, ?_, ?_⟩
  · intro cs addr h
    unfold call_stack_push
    split_ifs with h1
    · exact h
    · simp only [CALL_STACK_MAX_DEPTH] at *
      omega
  · intro cs h
    unfold call_stack_pop
    rw [if_pos h]
  · intro getf s cmd loc line out hb h
    simp only [il_interp_execute, call_stack_push, call_stack_pop] at h
    split_ifs at h <;>
      try (simp only [Option.some.injEq] at h; subst h; simpa using hb)
    · -- RET with a non-empty call stack: the counter decreases
      simp only [Option.some.injEq] at h
      subst h
      simp only [CALL_STACK_MAX_DEPTH] at *
      omega
    · -- CALL with room on the stack: the counter rises to at most capacity
      simp only [Option.some.injEq] at h
      subst h
      simp only [CALL_STACK_MAX_DEPTH] at *
      omega
    · -- immediate binary operator: call stack untouched
      rcases hev : evaluate_operator getf cmd s.accum (loc % U16) with - | ⟨a, evs⟩ <;>
        rw [hev] at h
      · simp at h
      · simp only [Option.some.injEq] at h
        subst h
        exact hb
    · -- memory-read binary operator: call stack untouched
      rcases hev : evaluate_operator getf cmd s.accum (getf (loc % U16) false % U16) with
        - | ⟨a, evs⟩ <;> rw [hev] at h
      · simp at h
      · simp only [Option.some.injEq] at h
        subst h
        exact hb
    · -- close-group: call stack untouched
      rcases hp : eval_stack_pop s.evalS with - | ⟨es, scmd, saccum⟩ <;> rw [hp] at h <;>
        simp only [] at h
      · simp only [Option.some.injEq] at h
        subst h
        exact hb
      · rcases hev : evaluate_operator getf scmd saccum s.accum with - | ⟨a, evs⟩ <;>
          rw [hev] at h
        · simp at h
        · simp only [Option.some.injEq] at h
          subst h
          exact hb

/-- Witness for call_stack_depth_invariant on the initial state. -/
theorem call_stack_depth_invariant_witness :
    (il_interp_init st0).callS.top = 0 ∧ call_stack_pop st0.callS = none :=
  ⟨call_stack_depth_invariant.1 st0, call_stack_depth_invariant.2.2.1 st0.callS rfl⟩

/-- Claim C10: an instruction whose opcode byte is above 21 (not one of
the 22 defined opcodes) behaves exactly as NOP: next line is the current
line + 1, the state (accumulator and both stacks) is unchanged, and no
call is made through the memory interface. -/
theorem undefined_opcode_nop (getf : Nat → Bool → Nat) (s : ILState) (cmd loc line : Nat)
    (hcode : 21 < cmd.land CMD_MASK) (hline : line + 1 < U16) :
    il_interp_execute getf s cmd loc line = some (s, line + 1, []) := by
  simp only [il_interp_execute, CMD_SET, CMD_RST, CMD_JMP, CMD_RET, CMD_CAL,
    CMD_STOR, CMD_LOAD, CMD_AND, CMD_LT, CMD_PAR, CMD_MASK, U16] at *
  split_ifs <;> first
  | omega
  | (simp only [Option.some.injEq, Prod.mk.injEq, List.nil_eq, true_and, and_true]; omega)

/-- Witness for undefined_opcode_nop at opcode byte 99. -/
theorem undefined_opcode_nop_witness :
    il_interp_execute (fun _ _ => 0) st0 99 1234 3 = some (st0, 4, []) :=
  undefined_opcode_nop (fun _ _ => 0) st0 99 1234 3 (by decide) (by decide)

end IOPlus
